import Mathlib

/-!
# The git driver of hound (`vcs/git.go`)

A shallow embedding of the git driver: reference resolution, authenticated
URL construction, the clone / pull command lines, head-branch detection and
the scan of the `check-attr` output, followed by the properties proved about
them.

Conventions of the embedding.

* A Go `string` and a Go `[]byte` are both sequences of bytes; they are
  modelled by `GoString`, a list of bytes (a byte is a natural number below
  256).  String literals of the source are written `lit "..."`, their UTF-8
  encoding.
* A Go `error` is modelled by its message; `Option Error` is a Go error
  value, `none` being `nil`.
* External processes are the only effect of the driver.  Every primitive of
  `os/exec` that the driver calls is a `Call`; the environment `Env` decides
  the outcome of each call from the calls made so far, and every function
  that runs a process threads the list of calls made so far.
* `log.Printf` only writes to the diagnostic sink and is left out.
-/

namespace Vcs

/-! ## Strings -/

/-- A byte of a Go string. -/
abbrev Byte := Nat

/-- A Go `string` (or `[]byte`): a sequence of bytes. -/
abbrev GoString := List Byte

/-- A Go `error`, represented by its message. -/
abbrev Error := GoString

/-- UTF-8 encoding of one code point. -/
def utf8Encode (c : Nat) : List Byte :=
  if c < 0x80 then [c]
  else if c < 0x800 then [0xC0 + c / 64, 0x80 + c % 64]
  else if c < 0x10000 then [0xE0 + c / 4096, 0x80 + c / 64 % 64, 0x80 + c % 64]
  else [0xF0 + c / 262144, 0x80 + c / 4096 % 64, 0x80 + c / 64 % 64, 0x80 + c % 64]

/-- The bytes of a string literal of the source. -/
def lit (s : String) : GoString :=
  s.toList.flatMap (fun c => utf8Encode c.toNat)

/-- Source constant `defaultRef`. -/
def defaultRef : GoString := lit "master"

/-- Source constant `autoGeneratedAttribute`. -/
def autoGeneratedAttribute : GoString := lit "linguist-generated"

/-! ## External processes -/

/-- An `exec.Cmd` as the driver builds it: working directory, program and
arguments (the arguments after the program name). -/
structure Cmd where
  Dir : GoString
  Path : GoString
  Args : List GoString
deriving DecidableEq, Repr

/-- The primitives of `os/exec` (and `io.Copy`) that the driver calls. -/
inductive Call where
  /-- The call `c.CombinedOutput()`. -/
  | CombinedOutput (c : Cmd)
  /-- The call `c.StdoutPipe()`. -/
  | StdoutPipe (c : Cmd)
  /-- The call `c.Start()`. -/
  | Start (c : Cmd)
  /-- The call `io.Copy(&buf, r)` where `r` is the stdout pipe of `c`. -/
  | Copy (c : Cmd)
  /-- The call `c.Wait()`. -/
  | Wait (c : Cmd)
  /-- The call `c.Output()` where `c.Stdin` is the stdout pipe of `src`. -/
  | OutputFrom (c : Cmd) (src : Cmd)
deriving DecidableEq, Repr

/-- What a call produced: its output bytes (empty for the calls that have
none) and its error. -/
structure Outcome where
  out : GoString
  err : Option Error
deriving DecidableEq, Repr

/-- The environment: the outcome of a call, given the calls made before it. -/
abbrev Env := List Call → Call → Outcome

/-- Perform one call: ask the environment and record the call. -/
def exec (env : Env) (c : Call) (h : List Call) : Outcome × List Call :=
  (env h c, h ++ [c])

/-! ## The regular expression `HEAD branch: (?P<branch>.+)` -/

/-- The literal part of `headBranchRegexp`. -/
def headBranchLiteral : GoString := lit "HEAD branch: "

/-- The call `headBranchRegexp.FindStringSubmatch(s)`: the leftmost match of
`HEAD branch: (.+)`, as the list of the whole match and the group, or the
empty list (Go's `nil`) when nothing matches.  The dot matches every byte but
the newline and `+` is greedy, so the group is the longest newline-free
run after the literal, and it must not be empty. -/
def FindStringSubmatch : GoString → List GoString
  | [] => []
  | c :: cs =>
    if headBranchLiteral.isPrefixOf (c :: cs) then
      let branch := ((c :: cs).drop headBranchLiteral.length).takeWhile (fun b => b ≠ 10)
      if branch ≠ [] then [headBranchLiteral ++ branch, branch]
      else FindStringSubmatch cs
    else FindStringSubmatch cs

/-! ## Library functions used by the driver -/

/-- Go's `strings.HasSuffix`. -/
def strings.HasSuffix (s suffix : GoString) : Bool :=
  suffix.isSuffixOf s

/-- Digits of `n`, most significant first, in front of `acc`. -/
def decimalAux : Nat → Nat → GoString → GoString
  | 0, _, acc => acc
  | fuel + 1, n, acc =>
    if n < 10 then (48 + n) :: acc
    else decimalAux fuel (n / 10) ((48 + n % 10) :: acc)

/-- Decimal rendering of a natural number. -/
def formatNat (n : Nat) : GoString :=
  decimalAux (n + 1) n []

/-- The call `fmt.Sprintf("%d", i)` on an `int`. -/
def Sprintf_d : Int → GoString
  | Int.ofNat n => formatNat n
  | Int.negSucc n => 45 :: formatNat (n + 1)

/-- Value of a string of decimal digits. -/
def decimalValue (s : GoString) : Nat :=
  s.foldl (fun a d => 10 * a + (d - 48)) 0

/-- UTF-8 encodings of the code points for which Go's `unicode.IsSpace`
holds: tab, newline, vertical tab, form feed, carriage return, space,
U+0085, U+00A0, U+1680, U+2000 to U+200A, U+2028, U+2029, U+202F, U+205F and
U+3000. -/
def spaceEncodings : List GoString :=
  [[9], [10], [11], [12], [13], [32], [0xC2, 0x85], [0xC2, 0xA0], [0xE1, 0x9A, 0x80]] ++
  (List.range 11).map (fun k => [0xE2, 0x80, 0x80 + k]) ++
  [[0xE2, 0x80, 0xA8], [0xE2, 0x80, 0xA9], [0xE2, 0x80, 0xAF], [0xE2, 0x81, 0x9F],
   [0xE3, 0x80, 0x80]]

/-- Remove the white space at the start of `s` (at most `fuel` code points). -/
def trimLeftSpace : Nat → GoString → GoString
  | 0, s => s
  | fuel + 1, s =>
    match spaceEncodings.find? (fun e => e.isPrefixOf s) with
    | some e => trimLeftSpace fuel (s.drop e.length)
    | none => s

/-- Remove the white space at the end of `s` (at most `fuel` code points). -/
def trimRightSpace : Nat → GoString → GoString
  | 0, s => s
  | fuel + 1, s =>
    match spaceEncodings.find? (fun e => e.isSuffixOf s) with
    | some e => trimRightSpace fuel (s.take (s.length - e.length))
    | none => s

/-- Go's `strings.TrimSpace`: the string without its leading and trailing
white space. -/
def strings.TrimSpace (s : GoString) : GoString :=
  trimRightSpace s.length (trimLeftSpace s.length s)

/-- Go's `filepath.Split` (separator `/`): the path up to and including the
last separator, and what follows it. -/
def filepath.Split (path : GoString) : GoString × GoString :=
  let file := (path.reverse.takeWhile (fun b => b ≠ 47)).reverse
  (path.take (path.length - file.length), file)

/-- The call `bytes.Split(s, []byte{sep})`: the pieces of `s` between the
occurrences of the byte `sep`; one piece more than there are separators. -/
def bytes.Split : GoString → Byte → List GoString
  | [], _ => [[]]
  | b :: bs, sep =>
    if b = sep then [] :: bytes.Split bs sep
    else
      match bytes.Split bs sep with
      | [] => [[b]]
      | t :: ts => (b :: t) :: ts

/-! ## The package `net/url`, a parameter of the development -/

/-- Go's `url.Userinfo`. -/
structure Userinfo where
  username : GoString
  password : GoString
  passwordSet : Bool
deriving DecidableEq, Repr

/-- Go's `url.URL`. -/
structure URL where
  Scheme : GoString
  Opaque : GoString
  User : Option Userinfo
  Host : GoString
  Path : GoString
  RawPath : GoString
  OmitHost : Bool
  ForceQuery : Bool
  RawQuery : GoString
  Fragment : GoString
  RawFragment : GoString
deriving DecidableEq, Repr

/-- Go's `url.UserPassword`. -/
def UserPassword (username password : GoString) : Userinfo :=
  { username := username, password := password, passwordSet := true }

/-- The two functions of the standard package `net/url` that the driver
calls.  The package is not part of the repository: the driver is verified
for every implementation of them. -/
structure NetURL where
  /-- The function `url.Parse`. -/
  Parse : GoString → Except Error URL
  /-- The method `(*URL).String`. -/
  String : URL → GoString

/-! ## The driver -/

/-- The implementations of the interface `refDetetector`: the detector that
`newGit` installs and the one of the test file. -/
inductive refDetetector where
  | headBranchDetector
  | testRefDetector (result : GoString)
deriving DecidableEq, Repr

/-- Source type `GitDriver`. -/
structure GitDriver where
  DetectRef : Bool
  Ref : GoString
  Username : GoString
  Password : GoString
  PullDepth : Int
  refDetetector : refDetetector
deriving DecidableEq, Repr

/-- Source function `run`: the combined output of the command, always with a
nil error (a failure is only logged). -/
def run (env : Env) (_desc dir cmd : GoString) (args : List GoString)
    (h : List Call) : (GoString × Option Error) × List Call :=
  let c : Cmd := { Dir := dir, Path := cmd, Args := args }
  let r := exec env (Call.CombinedOutput c) h
  ((r.1.out, none), r.2)

/-- Source method `headBranchDetector.detectRef`. -/
def headBranchDetector.detectRef (env : Env) (dir : GoString) (h : List Call) :
    GoString × List Call :=
  let r := run env (lit "git show remote info") dir (lit "git")
    [lit "remote", lit "show", lit "origin"] h
  match r.1.2 with
  | some _ => ([], r.2)
  | none =>
    let submatches := FindStringSubmatch r.1.1
    if submatches.length ≠ 2 then ([], r.2)
    else (submatches.getD 1 [], r.2)

/-- Source method `testRefDetector.detectRef` (test file). -/
def testRefDetector.detectRef (result : GoString) (_dir : GoString) (h : List Call) :
    GoString × List Call :=
  (result, h)

/-- Dispatch of the interface method `detectRef`. -/
def refDetetector.detectRef (d : refDetetector) (env : Env) (dir : GoString)
    (h : List Call) : GoString × List Call :=
  match d with
  | .headBranchDetector => headBranchDetector.detectRef env dir h
  | .testRefDetector result => testRefDetector.detectRef result dir h

/-- Source method `GitDriver.targetRef`. -/
def GitDriver.targetRef (env : Env) (g : GitDriver) (dir : GoString) (h : List Call) :
    GoString × List Call :=
  let r : GoString × List Call :=
    if g.Ref ≠ [] then (g.Ref, h)
    else if g.DetectRef then g.refDetetector.detectRef env dir h
    else ([], h)
  let targetRef := if r.1 = [] then defaultRef else r.1
  (targetRef, r.2)

/-- Source method `GitDriver.HeadRev`.  The deferred `r.Close()` does not
change the result and is left out. -/
def GitDriver.HeadRev (env : Env) (_g : GitDriver) (dir : GoString) (h : List Call) :
    (GoString × Option Error) × List Call :=
  let cmd : Cmd := { Dir := dir, Path := lit "git", Args := [lit "rev-parse", lit "HEAD"] }
  let r := exec env (Call.StdoutPipe cmd) h
  match r.1.err with
  | some err => (([], some err), r.2)
  | none =>
    let s := exec env (Call.Start cmd) r.2
    match s.1.err with
    | some err => (([], some err), s.2)
    | none =>
      let buf := exec env (Call.Copy cmd) s.2
      match buf.1.err with
      | some err => (([], some err), buf.2)
      | none =>
        let w := exec env (Call.Wait cmd) buf.2
        ((strings.TrimSpace buf.1.out, w.1.err), w.2)

/-- Source method `GitDriver.addDepth`. -/
def GitDriver.addDepth (g : GitDriver) (args : List GoString) : List GoString :=
  if g.PullDepth > 0 then args ++ [lit "--depth", Sprintf_d g.PullDepth]
  else args

/-- Source method `GitDriver.Pull`. -/
def GitDriver.Pull (env : Env) (g : GitDriver) (dir : GoString) (h : List Call) :
    (GoString × Option Error) × List Call :=
  let t := g.targetRef env dir h
  let targetRef := t.1
  let args := [lit "fetch", lit "--prune", lit "--no-tags"]
  let args := g.addDepth args
  let args := args ++ [lit "origin", lit "+" ++ targetRef ++ lit ":remotes/origin/" ++ targetRef]
  let f := run env (lit "git fetch") dir (lit "git") args t.2
  match f.1.2 with
  | some err => (([], some err), f.2)
  | none =>
    let r := run env (lit "git reset") dir (lit "git")
      [lit "reset", lit "--hard", lit "origin/" ++ targetRef] f.2
    match r.1.2 with
    | some err => (([], some err), r.2)
    | none => g.HeadRev env dir r.2

/-- Source method `GitDriver.addAuth`. -/
def GitDriver.addAuth (net_url : NetURL) (g : GitDriver) (url : GoString) :
    GoString × Option Error :=
  if g.Username ≠ [] ∨ g.Password ≠ [] then
    match net_url.Parse url with
    | .error err => ([], some err)
    | .ok u =>
      if ¬ (strings.HasSuffix u.Scheme (lit "https") ∨ strings.HasSuffix u.Scheme (lit "http")) then
        ([], some (url ++
          lit " is not an http or https repository, shouldn't have username or password"))
      else
        let u := { u with User := some (UserPassword g.Username g.Password) }
        (net_url.String u, none)
  else (url, none)

/-- Source method `GitDriver.Clone`. -/
def GitDriver.Clone (net_url : NetURL) (env : Env) (g : GitDriver) (dir url : GoString)
    (h : List Call) : (GoString × Option Error) × List Call :=
  let parRep := filepath.Split dir
  let a := g.addAuth net_url url
  match a.2 with
  | some err => (([], some err), h)
  | none =>
    let url := a.1
    let args := [lit "clone"]
    let args := g.addDepth args
    let args := args ++ [url, parRep.2]
    let cmd : Cmd := { Dir := parRep.1, Path := lit "git", Args := args }
    let o := exec env (Call.CombinedOutput cmd) h
    match o.1.err with
    | some err => (([], some err), o.2)
    | none => g.Pull env dir o.2

/-- Source method `GitDriver.SpecialFiles`. -/
def GitDriver.SpecialFiles (_g : GitDriver) : List GoString :=
  [lit ".git"]

/-- The loop of `AutoGeneratedFiles` over the tokens:
`for i := 2; i < len(tokens); i += 3`, started at index `i` with the files
found so far; `fuel` bounds the number of iterations. -/
def scanTokens (tokens : List GoString) : Nat → Nat → List GoString → List GoString
  | 0, _, files => files
  | fuel + 1, i, files =>
    if i < tokens.length then
      let files :=
        if tokens.getD i [] = lit "true" ∧ tokens.getD (i - 1) [] = autoGeneratedAttribute then
          files ++ [tokens.getD (i - 2) []]
        else files
      scanTokens tokens fuel (i + 3) files
    else files

/-- The parsing step of `AutoGeneratedFiles`: split the output of
`check-attr` on NUL and scan the tokens with stride 3 from index 2.  The
loop runs at most once per token. -/
def parseCheckAttr (out : GoString) (files : List GoString) : List GoString :=
  let tokens := bytes.Split out 0
  scanTokens tokens tokens.length 2 files

/-- The command `filesCmd` of `AutoGeneratedFiles`: `git ls-files -z` in `dir`. -/
def filesCmd (dir : GoString) : Cmd :=
  { Dir := dir, Path := lit "git", Args := [lit "ls-files", lit "-z"] }

/-- The command `attributesCmd` of `AutoGeneratedFiles`:
`git check-attr --stdin -z linguist-generated` in `dir`. -/
def attributesCmd (dir : GoString) : Cmd :=
  { Dir := dir, Path := lit "git",
    Args := [lit "check-attr", lit "--stdin", lit "-z", autoGeneratedAttribute] }

/-- Source method `GitDriver.AutoGeneratedFiles`. -/
def GitDriver.AutoGeneratedFiles (env : Env) (_g : GitDriver) (dir : GoString)
    (h : List Call) : List GoString × List Call :=
  let files : List GoString := []
  let pipe := exec env (Call.StdoutPipe (filesCmd dir)) h
  match pipe.1.err with
  | some _ => (files, pipe.2)
  | none =>
    let s := exec env (Call.Start (filesCmd dir)) pipe.2
    match s.1.err with
    | some _ => (files, s.2)
    | none =>
      let o := exec env (Call.OutputFrom (attributesCmd dir) (filesCmd dir)) s.2
      match o.1.err with
      | some _ => (files, o.2)
      | none =>
        let files := parseCheckAttr o.1.out files
        let w := exec env (Call.Wait (filesCmd dir)) o.2
        match w.1.err with
        | some _ => (files, w.2)
        | none => (files, w.2)

/-- The fields of `GitDriver` that `encoding/json` can see: the exported
ones, with their zero values as defaults.  The field `refDetetector` is not
exported, so decoding cannot set it. -/
structure GitConfig where
  DetectRef : Bool := false
  Ref : GoString := []
  Username : GoString := []
  Password : GoString := []
  PullDepth : Int := 0
deriving DecidableEq, Repr

/-- Source function `newGit`.  The argument `Unmarshal` stands for
`json.Unmarshal` into a zero `GitDriver` (standard library, a parameter of
the development); `b = none` is the nil slice.  The result is the pair of
the driver (`none` for `nil`) and the error. -/
def newGit (Unmarshal : GoString → Except Error GitConfig) (b : Option GoString) :
    Option GitDriver × Option Error :=
  let decoded : Except Error GitConfig :=
    match b with
    | some bs => Unmarshal bs
    | none => .ok {}
  match decoded with
  | .error err => (none, some err)
  | .ok d =>
    let PullDepth := if d.PullDepth = 0 then 1 else d.PullDepth
    (some { DetectRef := d.DetectRef, Ref := d.Ref, Username := d.Username,
            Password := d.Password, PullDepth := PullDepth,
            refDetetector := refDetetector.headBranchDetector }, none)

/-! ## A model of the package `net/url`

The functions below follow `net/url` of the Go standard library (release
1.21): `Parse` and `(*URL).String` with the helpers they use, on byte strings.
Which inputs are rejected follows the package; the error values carry a
short message and do not reproduce the exact texts of the package (the
quoting of the offending text, the wrapper `parse "<url>": ...`).  The model
instantiates the parameter `NetURL` in the examples. -/

/-- Go's `strings.HasPrefix`. -/
def strings.HasPrefix (s pre : GoString) : Bool :=
  pre.isPrefixOf s

/-- Go's `strings.Index`: the first position at which `substr` occurs. -/
def strings.Index : GoString → GoString → Option Nat
  | [], substr => if substr = [] then some 0 else none
  | c :: cs, substr =>
    if substr.isPrefixOf (c :: cs) then some 0
    else (strings.Index cs substr).map (fun i => i + 1)

/-- Go's `strings.LastIndex`: the last position at which `substr` occurs. -/
def strings.LastIndex (s substr : GoString) : Option Nat :=
  (List.range (s.length + 1)).reverse.find? (fun i => substr.isPrefixOf (s.drop i))

/-- Go's `strings.Contains`. -/
def strings.Contains (s substr : GoString) : Bool :=
  (strings.Index s substr).isSome

/-- Go's `strings.Cut`: the text before and after the first `sep`, and
whether `sep` was found. -/
def strings.Cut (s sep : GoString) : GoString × GoString × Bool :=
  match strings.Index s sep with
  | some i => (s.take i, s.drop (i + sep.length), true)
  | none => (s, [], false)

/-- Go's `strings.ToLower` on ASCII text. -/
def strings.ToLower (s : GoString) : GoString :=
  s.map (fun c => if 65 ≤ c ∧ c ≤ 90 then c + 32 else c)

namespace url

/-- The escaping modes of `net/url`. -/
inductive encoding where
  | encodePath
  | encodePathSegment
  | encodeHost
  | encodeZone
  | encodeUserPassword
  | encodeQueryComponent
  | encodeFragment
deriving DecidableEq, Repr

/-- Go's `ishex`. -/
def ishex (c : Byte) : Bool :=
  (48 ≤ c ∧ c ≤ 57) ∨ (97 ≤ c ∧ c ≤ 102) ∨ (65 ≤ c ∧ c ≤ 70)

/-- Go's `unhex`. -/
def unhex (c : Byte) : Byte :=
  if 48 ≤ c ∧ c ≤ 57 then c - 48
  else if 97 ≤ c ∧ c ≤ 102 then c - 97 + 10
  else if 65 ≤ c ∧ c ≤ 70 then c - 65 + 10
  else 0

/-- Go's `shouldEscape`. -/
def shouldEscape (c : Byte) (mode : encoding) : Bool :=
  if (97 ≤ c ∧ c ≤ 122) ∨ (65 ≤ c ∧ c ≤ 90) ∨ (48 ≤ c ∧ c ≤ 57) then false
  else if (mode = .encodeHost ∨ mode = .encodeZone) ∧ c ∈ lit "!$&\x27()*+,;=:[]<>\"" then false
  else if c ∈ lit "-_.~" then false
  else if c ∈ lit "$&+,/:;=?@" then
    match mode with
    | .encodePath => c = 63
    | .encodePathSegment => c = 47 ∨ c = 59 ∨ c = 44 ∨ c = 63
    | .encodeUserPassword => c = 64 ∨ c = 47 ∨ c = 63 ∨ c = 58
    | .encodeQueryComponent => true
    | .encodeFragment => false
    | _ => true
  else if mode = .encodeFragment ∧ c ∈ lit "!()*" then false
  else true

/-- The checking pass of Go's `unescape`: the error of the first malformed
or forbidden byte, if any. -/
def unescapeCheck (mode : encoding) : GoString → Option Error
  | [] => none
  | 37 :: rest =>
    match rest with
    | a :: b :: rest2 =>
      if ¬ (ishex a ∧ ishex b) then some (lit "invalid URL escape " ++ (37 :: rest).take 3)
      else if mode = .encodeHost ∧ unhex a < 8 ∧ [37, a, b] ≠ lit "%25" then
        some (lit "invalid URL escape " ++ [37, a, b])
      else if mode = .encodeZone ∧ [37, a, b] ≠ lit "%25" ∧ unhex a * 16 + unhex b ≠ 32 ∧
          shouldEscape (unhex a * 16 + unhex b) .encodeHost then
        some (lit "invalid URL escape " ++ [37, a, b])
      else unescapeCheck mode rest2
    | _ => some (lit "invalid URL escape " ++ (37 :: rest).take 3)
  | c :: rest =>
    if c ≠ 43 ∧ (mode = .encodeHost ∨ mode = .encodeZone) ∧ c < 0x80 ∧
        shouldEscape c .encodeHost then
      some (lit "invalid character in host name " ++ [c])
    else unescapeCheck mode rest

/-- The decoding pass of Go's `unescape`. -/
def unescapeDecode (mode : encoding) : GoString → GoString
  | [] => []
  | 37 :: a :: b :: rest => (unhex a * 16 + unhex b) :: unescapeDecode mode rest
  | c :: rest =>
    (if c = 43 ∧ mode = .encodeQueryComponent then 32 else c) :: unescapeDecode mode rest

/-- Go's `unescape`. -/
def unescape (s : GoString) (mode : encoding) : Except Error GoString :=
  match unescapeCheck mode s with
  | some err => .error err
  | none => .ok (unescapeDecode mode s)

/-- The digit of `"0123456789ABCDEF"` at position `n`. -/
def upperhex (n : Nat) : Byte :=
  if n < 10 then 48 + n else 65 + (n - 10)

/-- Go's `escape`. -/
def escape (s : GoString) (mode : encoding) : GoString :=
  s.flatMap (fun c =>
    if shouldEscape c mode then
      if c = 32 ∧ mode = .encodeQueryComponent then [43]
      else [37, upperhex (c / 16), upperhex (c % 16)]
    else [c])

/-- Go's `validEncoded`. -/
def validEncoded (s : GoString) (mode : encoding) : Bool :=
  s.all (fun c => c ∈ lit "!$&\x27()*+,;=:@[]%" ∨ ¬ shouldEscape c mode)

/-- Go's `stringContainsCTLByte`. -/
def stringContainsCTLByte (s : GoString) : Bool :=
  s.any (fun b => b < 32 ∨ b = 0x7f)

/-- The loop of Go's `getScheme`, at index `i` with the bytes from `i` on. -/
def getSchemeLoop (rawURL : GoString) : Nat → GoString → Except Error (GoString × GoString)
  | _, [] => .ok ([], rawURL)
  | i, c :: cs =>
    if (97 ≤ c ∧ c ≤ 122) ∨ (65 ≤ c ∧ c ≤ 90) then getSchemeLoop rawURL (i + 1) cs
    else if (48 ≤ c ∧ c ≤ 57) ∨ c = 43 ∨ c = 45 ∨ c = 46 then
      if i = 0 then .ok ([], rawURL) else getSchemeLoop rawURL (i + 1) cs
    else if c = 58 then
      if i = 0 then .error (lit "missing protocol scheme")
      else .ok (rawURL.take i, rawURL.drop (i + 1))
    else .ok ([], rawURL)

/-- Go's `getScheme`: the scheme and what follows the colon. -/
def getScheme (rawURL : GoString) : Except Error (GoString × GoString) :=
  getSchemeLoop rawURL 0 rawURL

/-- Go's `validOptionalPort`. -/
def validOptionalPort (port : GoString) : Bool :=
  match port with
  | [] => true
  | c :: rest => c = 58 ∧ rest.all (fun b => 48 ≤ b ∧ b ≤ 57)

/-- Go's `validUserinfo`. -/
def validUserinfo (s : GoString) : Bool :=
  s.all (fun r => (65 ≤ r ∧ r ≤ 90) ∨ (97 ≤ r ∧ r ≤ 122) ∨ (48 ≤ r ∧ r ≤ 57) ∨
    r ∈ lit "-._:~!$&\x27()*+,;=%@")

/-- Go's `parseHost`. -/
def parseHost (host : GoString) : Except Error GoString :=
  if strings.HasPrefix host (lit "[") then
    match strings.LastIndex host (lit "]") with
    | none => .error (lit "missing \x27]\x27 in host")
    | some i =>
      if ¬ validOptionalPort (host.drop (i + 1)) then
        .error (lit "invalid port after host")
      else
        match strings.Index (host.take i) (lit "%25") with
        | some zone => do
          let host1 ← unescape (host.take zone) .encodeHost
          let host2 ← unescape ((host.take i).drop zone) .encodeZone
          let host3 ← unescape (host.drop i) .encodeHost
          pure (host1 ++ host2 ++ host3)
        | none => unescape host .encodeHost
  else
    match strings.LastIndex host (lit ":") with
    | some i =>
      if ¬ validOptionalPort (host.drop i) then .error (lit "invalid port after host")
      else unescape host .encodeHost
    | none => unescape host .encodeHost

/-- Go's `parseAuthority`. -/
def parseAuthority (authority : GoString) : Except Error (Option Userinfo × GoString) :=
  match strings.LastIndex authority (lit "@") with
  | none => do
    let host ← parseHost authority
    pure (none, host)
  | some i => do
    let host ← parseHost (authority.drop (i + 1))
    let userinfo := authority.take i
    if ¬ validUserinfo userinfo then .error (lit "net/url: invalid userinfo")
    else if ¬ strings.Contains userinfo (lit ":") then do
      let userinfo ← unescape userinfo .encodeUserPassword
      pure (some { username := userinfo, password := [], passwordSet := false }, host)
    else do
      let c := strings.Cut userinfo (lit ":")
      let username ← unescape c.1 .encodeUserPassword
      let password ← unescape c.2.1 .encodeUserPassword
      pure (some (UserPassword username password), host)

/-- Go's `(*URL).setPath`. -/
def setPath (u : URL) (p : GoString) : Except Error URL := do
  let path ← unescape p .encodePath
  pure { u with Path := path, RawPath := if p = escape path .encodePath then [] else p }

/-- Go's `(*URL).setFragment`. -/
def setFragment (u : URL) (f : GoString) : Except Error URL := do
  let frag ← unescape f .encodeFragment
  pure { u with Fragment := frag,
                RawFragment := if f = escape frag .encodeFragment then [] else f }

/-- The zero `URL`. -/
def zeroURL : URL :=
  { Scheme := [], Opaque := [], User := none, Host := [], Path := [], RawPath := [],
    OmitHost := false, ForceQuery := false, RawQuery := [], Fragment := [], RawFragment := [] }

/-- Go's `parse` with `viaRequest = false`. -/
def parse (rawURL : GoString) : Except Error URL :=
  if stringContainsCTLByte rawURL then
    .error (lit "net/url: invalid control character in URL")
  else if rawURL = lit "*" then .ok { zeroURL with Path := lit "*" }
  else do
    let sr ← getScheme rawURL
    let scheme := strings.ToLower sr.1
    let rest := sr.2
    let forceQuery : Bool := strings.HasSuffix rest (lit "?") ∧ rest.count 63 = 1
    let cut := strings.Cut rest (lit "?")
    let rest := if forceQuery then rest.take (rest.length - 1) else cut.1
    let rawQuery := if forceQuery then [] else cut.2.1
    let u : URL := { zeroURL with Scheme := scheme, ForceQuery := forceQuery, RawQuery := rawQuery }
    if ¬ strings.HasPrefix rest (lit "/") ∧ scheme ≠ [] then
      pure { u with Opaque := rest }
    else if ¬ strings.HasPrefix rest (lit "/") ∧
        strings.Contains (strings.Cut rest (lit "/")).1 (lit ":") then
      .error (lit "first path segment in URL cannot contain colon")
    else if (scheme ≠ [] ∨ ¬ strings.HasPrefix rest (lit "///")) ∧
        strings.HasPrefix rest (lit "//") then do
      let authority := rest.drop 2
      let split : GoString × GoString :=
        match strings.Index authority (lit "/") with
        | some i => (authority.take i, authority.drop i)
        | none => (authority, [])
      let uh ← parseAuthority split.1
      setPath { u with User := uh.1, Host := uh.2 } split.2
    else if scheme ≠ [] ∧ strings.HasPrefix rest (lit "/") then
      setPath { u with OmitHost := true } rest
    else setPath u rest

/-- Go's `url.Parse`. -/
def Parse (rawURL : GoString) : Except Error URL := do
  let c := strings.Cut rawURL (lit "#")
  let u ← parse c.1
  if c.2.1 = [] then pure u else setFragment u c.2.1

/-- Go's `(*Userinfo).String`. -/
def Userinfo.String (u : Userinfo) : GoString :=
  escape u.username .encodeUserPassword ++
    (if u.passwordSet then lit ":" ++ escape u.password .encodeUserPassword else [])

/-- Whether `unescape raw mode` succeeds with the result `s`. -/
def unescapesTo (raw : GoString) (mode : encoding) (s : GoString) : Bool :=
  match unescape raw mode with
  | .ok p => p = s
  | .error _ => false

/-- Go's `(*URL).EscapedPath`. -/
def EscapedPath (u : URL) : GoString :=
  if u.RawPath ≠ [] ∧ validEncoded u.RawPath .encodePath ∧
      unescapesTo u.RawPath .encodePath u.Path then u.RawPath
  else if u.Path = lit "*" then lit "*"
  else escape u.Path .encodePath

/-- Go's `(*URL).EscapedFragment`. -/
def EscapedFragment (u : URL) : GoString :=
  if u.RawFragment ≠ [] ∧ validEncoded u.RawFragment .encodeFragment ∧
      unescapesTo u.RawFragment .encodeFragment u.Fragment then u.RawFragment
  else escape u.Fragment .encodeFragment

/-- Go's `(*URL).String`. -/
def String (u : URL) : GoString :=
  let buf : GoString := if u.Scheme ≠ [] then u.Scheme ++ lit ":" else []
  let buf : GoString :=
    if u.Opaque ≠ [] then buf ++ u.Opaque
    else
      let buf : GoString :=
        if u.Scheme ≠ [] ∨ u.Host ≠ [] ∨ u.User ≠ none then
          if u.OmitHost ∧ u.Host = [] ∧ u.User = none then buf
          else
            buf ++ (if u.Host ≠ [] ∨ u.Path ≠ [] ∨ u.User ≠ none then lit "//" else []) ++
              (match u.User with
               | some ui => Userinfo.String ui ++ lit "@"
               | none => []) ++
              (if u.Host ≠ [] then escape u.Host .encodeHost else [])
        else buf
      let path := EscapedPath u
      let buf : GoString :=
        if path ≠ [] ∧ path.head? ≠ some 47 ∧ u.Host ≠ [] then buf ++ lit "/" else buf
      let buf : GoString :=
        if buf = [] ∧ strings.Contains (strings.Cut path (lit "/")).1 (lit ":") then
          buf ++ lit "./"
        else buf
      buf ++ path
  let buf : GoString :=
    if u.ForceQuery ∨ u.RawQuery ≠ [] then buf ++ lit "?" ++ u.RawQuery else buf
  if u.Fragment ≠ [] then buf ++ lit "#" ++ EscapedFragment u else buf

end url

/-- The package `net/url` as modelled above. -/
def netURL : NetURL :=
  { Parse := url.Parse, String := url.String }

/-! ## A decoder for the configuration objects

`json.Unmarshal` is a parameter of `newGit`.  The decoder below instantiates
it in the examples: it reads a flat JSON object whose values are strings
without escape sequences, integers, booleans or `null`, and ignores the
members the configuration does not name.  Go's decoder accepts more (escape
sequences, nested values, keys in any letter case); here such inputs are
errors. -/

namespace json

/-- A JSON value of the kinds the configuration uses. -/
inductive Value where
  | string (s : GoString)
  | number (i : Int)
  | bool (b : Bool)
  | null
deriving DecidableEq, Repr

/-- Drop the JSON white space at the start. -/
def skipSpace (s : GoString) : GoString :=
  s.dropWhile (fun c => c = 32 ∨ c = 9 ∨ c = 10 ∨ c = 13)

/-- Read a string literal without escape sequences: its bytes and the rest. -/
def readString : GoString → Option (GoString × GoString)
  | 34 :: rest =>
    let body := rest.takeWhile (fun c => c ≠ 34)
    if body.any (fun c => c = 92 ∨ c < 32) then none
    else
      match rest.drop body.length with
      | 34 :: after => some (body, after)
      | _ => none
  | _ => none

/-- Read the digits of an integer: its value and the rest. -/
def readDigits (s : GoString) : Option (Nat × GoString) :=
  let ds := s.takeWhile (fun c => 48 ≤ c ∧ c ≤ 57)
  if ds = [] then none else some (decimalValue ds, s.drop ds.length)

/-- Read one value and the rest. -/
def readValue (s : GoString) : Option (Value × GoString) :=
  if (lit "true").isPrefixOf s then some (Value.bool true, s.drop 4)
  else if (lit "false").isPrefixOf s then some (Value.bool false, s.drop 5)
  else if (lit "null").isPrefixOf s then some (Value.null, s.drop 4)
  else
    match s with
    | 34 :: _ => (readString s).map (fun r => (Value.string r.1, r.2))
    | 45 :: rest => (readDigits rest).map (fun r => (Value.number (-(r.1 : Int)), r.2))
    | _ => (readDigits s).map (fun r => (Value.number (r.1 : Int), r.2))

/-- Store one member into the configuration; `none` when the value has the
wrong type for its key. -/
def setField (d : GitConfig) (key : GoString) (v : Value) : Option GitConfig :=
  if v = Value.null then some d
  else if key = lit "detect-ref" then
    match v with
    | Value.bool b => some { d with DetectRef := b }
    | _ => none
  else if key = lit "ref" then
    match v with
    | Value.string s => some { d with Ref := s }
    | _ => none
  else if key = lit "username" then
    match v with
    | Value.string s => some { d with Username := s }
    | _ => none
  else if key = lit "password" then
    match v with
    | Value.string s => some { d with Password := s }
    | _ => none
  else if key = lit "pull-depth" then
    match v with
    | Value.number i => some { d with PullDepth := i }
    | _ => none
  else some d

/-- Read the members of an object, after its opening brace or a comma. -/
def readMembers : Nat → GoString → GitConfig → Option GitConfig
  | 0, _, _ => none
  | fuel + 1, s, d =>
    match readString (skipSpace s) with
    | none => none
    | some (key, rest) =>
      match skipSpace rest with
      | 58 :: rest =>
        match readValue (skipSpace rest) with
        | none => none
        | some (v, rest) =>
          match setField d key v with
          | none => none
          | some d =>
            match skipSpace rest with
            | 44 :: rest => readMembers fuel rest d
            | 125 :: rest => if skipSpace rest = [] then some d else none
            | _ => none
      | _ => none

/-- Decode a configuration object into a zero configuration. -/
def decodeConfig (b : GoString) : Except Error GitConfig :=
  match skipSpace b with
  | 123 :: rest =>
    match skipSpace rest with
    | 125 :: after =>
      if skipSpace after = [] then .ok {} else .error (lit "invalid configuration")
    | _ =>
      match readMembers b.length rest {} with
      | some d => .ok d
      | none => .error (lit "invalid configuration")
  | _ => .error (lit "invalid configuration")

end json

/-! ## Definitions used to state the properties -/

/-- The scan of the tokens, three at a time. -/
def scanTriples : List GoString → List GoString → List GoString
  | p :: a :: v :: rest, files =>
    scanTriples rest (if v = lit "true" ∧ a = autoGeneratedAttribute then files ++ [p] else files)
  | _, files => files

/-- The output of `check-attr -z` for a list of triples (path, attribute,
value): each component followed by a NUL byte. -/
def checkAttrOutput (triples : List (GoString × GoString × GoString)) : GoString :=
  triples.flatMap (fun t => t.1 ++ [0] ++ (t.2.1 ++ [0] ++ (t.2.2 ++ [0])))

/-- The paths of the triples whose attribute is `linguist-generated` and
whose value is `true`, in order. -/
def generatedPaths (triples : List (GoString × GoString × GoString)) : List GoString :=
  (triples.filter
    (fun t => decide (t.2.1 = autoGeneratedAttribute ∧ t.2.2 = lit "true"))).map (fun t => t.1)

/-- Outcome of the first step of `AutoGeneratedFiles`: creating the pipe of
`ls-files`. -/
def pipeOutcome (env : Env) (dir : GoString) (h : List Call) : Outcome :=
  env h (Call.StdoutPipe (filesCmd dir))

/-- Outcome of the second step: starting `ls-files`. -/
def startOutcome (env : Env) (dir : GoString) (h : List Call) : Outcome :=
  env (h ++ [Call.StdoutPipe (filesCmd dir)]) (Call.Start (filesCmd dir))

/-- Outcome of the third step: running `check-attr` on the pipe. -/
def attrOutcome (env : Env) (dir : GoString) (h : List Call) : Outcome :=
  env (h ++ [Call.StdoutPipe (filesCmd dir)] ++ [Call.Start (filesCmd dir)])
    (Call.OutputFrom (attributesCmd dir) (filesCmd dir))

/-- Outcome of the last step: waiting for `ls-files`. -/
def waitOutcome (env : Env) (dir : GoString) (h : List Call) : Outcome :=
  env (h ++ [Call.StdoutPipe (filesCmd dir)] ++ [Call.Start (filesCmd dir)] ++
      [Call.OutputFrom (attributesCmd dir) (filesCmd dir)])
    (Call.Wait (filesCmd dir))

/-- The fetch command of `Pull` for a target ref, with the depth flag. -/
def fetchCmd (g : GitDriver) (dir targetRef : GoString) : Cmd :=
  { Dir := dir, Path := lit "git",
    Args := g.addDepth [lit "fetch", lit "--prune", lit "--no-tags"] ++
      [lit "origin", lit "+" ++ targetRef ++ lit ":remotes/origin/" ++ targetRef] }

/-- The reset command of `Pull` for a target ref. -/
def resetCmd (dir targetRef : GoString) : Cmd :=
  { Dir := dir, Path := lit "git",
    Args := [lit "reset", lit "--hard", lit "origin/" ++ targetRef] }

/-- An environment in which every call succeeds with empty output, except
that `check-attr` prints `out` and that waiting for `ls-files` yields
`waitErr`. -/
def envCheckAttr (out : GoString) (waitErr : Option Error) : Env :=
  fun _ c =>
    match c with
    | Call.OutputFrom _ _ => { out := out, err := none }
    | Call.Wait _ => { out := [], err := waitErr }
    | _ => { out := [], err := none }

/-- An environment in which `CombinedOutput` yields `out` and `err`, and
every other call succeeds with empty output. -/
def envCombined (out : GoString) (err : Option Error) : Env :=
  fun _ c =>
    match c with
    | Call.CombinedOutput _ => { out := out, err := err }
    | _ => { out := [], err := none }

/-- The configuration of the test `TestGitConfig`:
`{"username" : "git_user", "password" : "git_pass"}`. -/
def testConfig : GoString :=
  lit "\x7b\"username\" : \"git_user\", \"password\" : \"git_pass\"\x7d"

/-- A driver as `newGit` builds it from an absent configuration, with the
given credentials. -/
def driverWith (username password : GoString) : GitDriver :=
  { DetectRef := false, Ref := [], Username := username, Password := password,
    PullDepth := 1, refDetetector := refDetetector.headBranchDetector }

/-! ## Theorems -/

/-! ### Lemmas on the library functions -/

theorem bytes_Split_append (a rest : GoString) (sep : Byte) (ha : sep ∉ a) :
    bytes.Split (a ++ sep :: rest) sep = a :: bytes.Split rest sep := by
  induction a with
  | nil => simp [bytes.Split]
  | cons x xs ih =>
    have hx : x ≠ sep := fun e => ha (by simp [e])
    have hxs : sep ∉ xs := fun e => ha (by simp [e])
    rw [List.cons_append, bytes.Split, if_neg hx, ih hxs]

theorem bytes_Split_checkAttrOutput (triples : List (GoString × GoString × GoString))
    (hnul : ∀ t ∈ triples, 0 ∉ t.1 ∧ 0 ∉ t.2.1 ∧ 0 ∉ t.2.2) :
    bytes.Split (checkAttrOutput triples) 0 =
      triples.flatMap (fun t => [t.1, t.2.1, t.2.2]) ++ [[]] := by
  induction triples with
  | nil => simp [checkAttrOutput, bytes.Split]
  | cons t ts ih =>
    have ht := hnul t (by simp)
    have hts : ∀ t ∈ ts, 0 ∉ t.1 ∧ 0 ∉ t.2.1 ∧ 0 ∉ t.2.2 := fun u hu => hnul u (by simp [hu])
    have hc : checkAttrOutput (t :: ts) =
        t.1 ++ 0 :: (t.2.1 ++ 0 :: (t.2.2 ++ 0 :: checkAttrOutput ts)) := by
      simp [checkAttrOutput]
    rw [hc, bytes_Split_append _ _ _ ht.1, bytes_Split_append _ _ _ ht.2.1,
      bytes_Split_append _ _ _ ht.2.2, ih hts]
    simp

theorem scanTokens_eq_scanTriples (fuel : Nat) :
    ∀ (pre suf files : List GoString), suf.length ≤ fuel →
      scanTokens (pre ++ suf) fuel (pre.length + 2) files = scanTriples suf files := by
  induction fuel with
  | zero =>
    intro pre suf files hlen
    have : suf = [] := by simpa using hlen
    subst this
    simp [scanTokens, scanTriples]
  | succ n ih =>
    intro pre suf files hlen
    match suf, hlen with
    | [], _ => simp [scanTokens, scanTriples]
    | [a], _ => simp [scanTokens, scanTriples]
    | [a, b], _ => simp [scanTokens, scanTriples]
    | p :: a :: v :: rest, hlen =>
      have h3 : pre ++ p :: a :: v :: rest = (pre ++ [p, a, v]) ++ rest := by simp
      have hi : pre.length + 2 + 3 = (pre ++ [p, a, v]).length + 2 := by simp
      have hlt : pre.length + 2 < (pre ++ p :: a :: v :: rest).length := by simp
      have g2 : (pre ++ p :: a :: v :: rest).getD (pre.length + 2) [] = v := by
        rw [List.getD_append_right _ _ _ _ (by omega)]
        simp
      have g1 : (pre ++ p :: a :: v :: rest).getD (pre.length + 2 - 1) [] = a := by
        rw [List.getD_append_right _ _ _ _ (by omega)]
        simp
      have g0 : (pre ++ p :: a :: v :: rest).getD (pre.length + 2 - 2) [] = p := by
        rw [List.getD_append_right _ _ _ _ (by omega)]
        simp
      have hrest : rest.length ≤ n := by simp at hlen; omega
      rw [scanTokens, if_pos hlt, g2, g1, g0, hi, h3, ih _ _ _ hrest, scanTriples]

theorem scanTriples_flat (triples : List (GoString × GoString × GoString)) :
    ∀ files : List GoString,
      scanTriples (triples.flatMap (fun t => [t.1, t.2.1, t.2.2]) ++ [[]]) files =
        files ++ generatedPaths triples := by
  induction triples with
  | nil => intro files; simp [scanTriples, generatedPaths]
  | cons t ts ih =>
    intro files
    have hc : (t :: ts).flatMap (fun t => [t.1, t.2.1, t.2.2]) ++ [[]] =
        t.1 :: t.2.1 :: t.2.2 :: (ts.flatMap (fun t => [t.1, t.2.1, t.2.2]) ++ [[]]) := by
      rw [List.flatMap_cons]
      rfl
    rw [hc, scanTriples, ih]
    unfold generatedPaths
    by_cases h : t.2.2 = lit "true" ∧ t.2.1 = autoGeneratedAttribute
    · have h2 : decide (t.2.1 = autoGeneratedAttribute ∧ t.2.2 = lit "true") = true :=
        decide_eq_true ⟨h.2, h.1⟩
      rw [if_pos h]
      simp only [List.filter_cons, h2, if_true, List.map_cons, List.append_assoc,
        List.singleton_append]
    · have h2 : decide (t.2.1 = autoGeneratedAttribute ∧ t.2.2 = lit "true") = false :=
        decide_eq_false (fun e => h ⟨e.2, e.1⟩)
      rw [if_neg h]
      simp only [List.filter_cons, h2, Bool.false_eq_true, if_false]

theorem parseCheckAttr_triples (triples : List (GoString × GoString × GoString))
    (hnul : ∀ t ∈ triples, 0 ∉ t.1 ∧ 0 ∉ t.2.1 ∧ 0 ∉ t.2.2) :
    parseCheckAttr (checkAttrOutput triples) [] = generatedPaths triples := by
  unfold parseCheckAttr
  have h := scanTokens_eq_scanTriples (bytes.Split (checkAttrOutput triples) 0).length []
    (bytes.Split (checkAttrOutput triples) 0) [] (le_refl _)
  simp only [List.nil_append, List.length_nil, Nat.zero_add] at h
  rw [h, bytes_Split_checkAttrOutput triples hnul, scanTriples_flat, List.nil_append]

theorem decimalAux_value (fuel : Nat) :
    ∀ (n : Nat) (acc : GoString), n < fuel →
      (decimalAux fuel n acc).foldl (fun a d => 10 * a + (d - 48)) 0 =
        acc.foldl (fun a d => 10 * a + (d - 48)) n := by
  induction fuel with
  | zero => intro n acc h; omega
  | succ k ih =>
    intro n acc h
    unfold decimalAux
    by_cases hn : n < 10
    · simp [hn]
    · rw [if_neg hn, ih (n / 10) _ (by omega)]
      simp only [List.foldl_cons]
      congr 1
      omega

theorem decimalAux_digits (fuel : Nat) :
    ∀ (n : Nat) (acc : GoString), n < fuel → (∀ d ∈ acc, 48 ≤ d ∧ d ≤ 57) →
      ∀ d ∈ decimalAux fuel n acc, 48 ≤ d ∧ d ≤ 57 := by
  induction fuel with
  | zero => intro n acc h; omega
  | succ k ih =>
    intro n acc h hacc
    unfold decimalAux
    by_cases hn : n < 10
    · rw [if_pos hn]
      intro d hd
      rcases List.mem_cons.mp hd with rfl | hd
      · show (48 : Nat) ≤ 48 + n ∧ 48 + n ≤ (57 : Nat)
        omega
      · exact hacc d hd
    · rw [if_neg hn]
      apply ih (n / 10) _ (by omega)
      intro d hd
      rcases List.mem_cons.mp hd with rfl | hd
      · show (48 : Nat) ≤ 48 + n % 10 ∧ 48 + n % 10 ≤ (57 : Nat)
        omega
      · exact hacc d hd

theorem decimalAux_head (fuel : Nat) :
    ∀ (n : Nat) (acc : GoString), 0 < n → n < fuel →
      ∃ d rest, decimalAux fuel n acc = d :: rest ∧ 49 ≤ d ∧ d ≤ 57 := by
  induction fuel with
  | zero => intro n acc _ h; omega
  | succ k ih =>
    intro n acc hpos h
    unfold decimalAux
    by_cases hn : n < 10
    · rw [if_pos hn]
      have h1 : (49 : Nat) ≤ 48 + n := by omega
      have h2 : 48 + n ≤ (57 : Nat) := by omega
      exact ⟨48 + n, acc, rfl, h1, h2⟩
    · rw [if_neg hn]
      exact ih (n / 10) _ (by omega) (by omega)

/-! ### Lemmas on the driver -/

theorem Pull_eq_HeadRev (env : Env) (g : GitDriver) (dir : GoString) (h : List Call) :
    g.Pull env dir h =
      g.HeadRev env dir
        ((g.targetRef env dir h).2 ++
          [Call.CombinedOutput (fetchCmd g dir (g.targetRef env dir h).1)] ++
          [Call.CombinedOutput (resetCmd dir (g.targetRef env dir h).1)]) :=
  rfl

theorem HeadRev_trace (env : Env) (g : GitDriver) (dir : GoString) (h : List Call) :
    h <+: (g.HeadRev env dir h).2 := by
  unfold GitDriver.HeadRev
  simp only [exec]
  split
  · exact List.prefix_append _ _
  · split
    · simp only [List.append_assoc]
      exact List.prefix_append _ _
    · split
      · simp only [List.append_assoc]
        exact List.prefix_append _ _
      · simp only [List.append_assoc]
        exact List.prefix_append _ _

theorem targetRef_trace (env : Env) (g : GitDriver) (dir : GoString) (h : List Call) :
    h <+: (g.targetRef env dir h).2 := by
  unfold GitDriver.targetRef
  by_cases hr : g.Ref = []
  · by_cases hd : g.DetectRef = true
    · cases hdet : g.refDetetector with
      | headBranchDetector =>
        simp only [hr, hd, hdet, refDetetector.detectRef, headBranchDetector.detectRef, run, exec]
        simp
        split <;> exact List.prefix_append _ _
      | testRefDetector result =>
        simp [hr, hd, hdet, refDetetector.detectRef, testRefDetector.detectRef]
    · simp [hr, hd]
  · simp [hr]

theorem Pull_trace (env : Env) (g : GitDriver) (dir : GoString) (h : List Call) :
    h <+: (g.Pull env dir h).2 := by
  rw [Pull_eq_HeadRev]
  refine List.IsPrefix.trans ?_ (HeadRev_trace _ _ _ _)
  refine List.IsPrefix.trans (targetRef_trace env g dir h) ?_
  simp only [List.append_assoc]
  exact List.prefix_append _ _

/-! ### The claims -/

/-- C1: `targetRef` returns the explicit `Ref` whenever it is non-empty;
otherwise the detector's result when `DetectRef` is set and that result is
non-empty; otherwise `"master"`.  Stated for the detector the driver holds,
and for the test detector with every result string. -/
theorem targetRef_precedence (env : Env) (g : GitDriver) (dir : GoString) (h : List Call) :
    (g.targetRef env dir h).1 =
        (if g.Ref ≠ [] then g.Ref
         else if g.DetectRef = true ∧ (g.refDetetector.detectRef env dir h).1 ≠ []
           then (g.refDetetector.detectRef env dir h).1
         else lit "master")
    ∧ ∀ result : GoString,
        (GitDriver.targetRef env { g with refDetetector := .testRefDetector result } dir h).1 =
          (if g.Ref ≠ [] then g.Ref
           else if g.DetectRef = true ∧ result ≠ [] then result
           else lit "master") := by
  constructor
  · unfold GitDriver.targetRef
    by_cases hr : g.Ref = []
    · by_cases hd : g.DetectRef = true
      · by_cases he : (g.refDetetector.detectRef env dir h).1 = [] <;>
          simp [hr, hd, he, defaultRef]
      · simp [hr, hd, defaultRef]
    · simp [hr]
  · intro result
    unfold GitDriver.targetRef
    by_cases hr : g.Ref = []
    · by_cases hd : g.DetectRef = true
      · by_cases he : result = [] <;>
          simp [hr, hd, he, defaultRef, refDetetector.detectRef, testRefDetector.detectRef]
      · simp [hr, hd, defaultRef]
    · simp [hr]

/-- C2: when the output of `check-attr` is `path NUL attribute NUL value NUL`
for each triple of a list, in order, and no component contains a NUL byte,
the token scan of `AutoGeneratedFiles` yields exactly the paths, in order, of
the triples whose attribute is `linguist-generated` and whose value is
`true`; and so does `AutoGeneratedFiles` whenever its first three steps
succeed with that output. -/
theorem autoGeneratedFiles_token_scan (triples : List (GoString × GoString × GoString))
    (hnul : ∀ t ∈ triples, 0 ∉ t.1 ∧ 0 ∉ t.2.1 ∧ 0 ∉ t.2.2) :
    parseCheckAttr (checkAttrOutput triples) [] = generatedPaths triples
    ∧ generatedPaths triples =
        (triples.filter
          (fun t => decide (t.2.1 = lit "linguist-generated" ∧ t.2.2 = lit "true"))).map
          (fun t => t.1)
    ∧ ∀ (env : Env) (g : GitDriver) (dir : GoString) (h : List Call),
        (pipeOutcome env dir h).err = none →
        (startOutcome env dir h).err = none →
        attrOutcome env dir h = { out := checkAttrOutput triples, err := none } →
        (g.AutoGeneratedFiles env dir h).1 = generatedPaths triples := by
  refine ⟨parseCheckAttr_triples triples hnul, rfl, ?_⟩
  intro env g dir h hp hs ha
  simp only [pipeOutcome, startOutcome, attrOutcome] at hp hs ha
  simp only [GitDriver.AutoGeneratedFiles, exec, hp, hs, ha]
  split <;> exact parseCheckAttr_triples triples hnul

/-- Witness of C2: the example of the specification, `path1` generated and
`path2` not. -/
theorem autoGeneratedFiles_token_scan_witness :
    checkAttrOutput
        [(lit "path1", lit "linguist-generated", lit "true"),
         (lit "path2", lit "linguist-generated", lit "false")] =
      lit "path1\x00linguist-generated\x00true\x00path2\x00linguist-generated\x00false\x00"
    ∧ parseCheckAttr
        (checkAttrOutput
          [(lit "path1", lit "linguist-generated", lit "true"),
           (lit "path2", lit "linguist-generated", lit "false")]) [] = [lit "path1"] :=
  ⟨by decide,
   (autoGeneratedFiles_token_scan
      [(lit "path1", lit "linguist-generated", lit "true"),
       (lit "path2", lit "linguist-generated", lit "false")] (by decide)).1.trans (by decide)⟩

/-- C3: without credentials (`Username` and `Password` both empty) `addAuth`
returns the input string unchanged and no error, for every string and every
implementation of `net/url`. -/
theorem addAuth_no_credentials (net_url : NetURL) (g : GitDriver) (url : GoString)
    (hu : g.Username = []) (hp : g.Password = []) :
    g.addAuth net_url url = (url, none) := by
  simp [GitDriver.addAuth, hu, hp]

/-- Witness of C3: a string with the scheme `ssh` and a string that does not
parse are both returned unchanged. -/
theorem addAuth_no_credentials_witness :
    (driverWith [] []).addAuth netURL (lit "ssh://example.com/repo.git") =
        (lit "ssh://example.com/repo.git", none)
    ∧ (driverWith [] []).addAuth netURL (lit "://%zz") = (lit "://%zz", none) :=
  ⟨addAuth_no_credentials netURL (driverWith [] []) (lit "ssh://example.com/repo.git")
      rfl rfl,
   addAuth_no_credentials netURL (driverWith [] []) (lit "://%zz") rfl rfl⟩

/-- C4: with a credential present and a URL that parses, `addAuth` returns an
error exactly when the parsed scheme ends neither in `http` nor in `https`;
the URL returned is then empty and the message starts with the input URL.  In
particular it fails for `ssh://example.com/repo.git`, whose scheme is `ssh`. -/
theorem addAuth_unsupported_scheme (net_url : NetURL) (g : GitDriver) (url : GoString) (u : URL)
    (hcred : g.Username ≠ [] ∨ g.Password ≠ [])
    (hparse : net_url.Parse url = .ok u) :
    ((g.addAuth net_url url).2 ≠ none ↔
        (strings.HasSuffix u.Scheme (lit "http") = false ∧
         strings.HasSuffix u.Scheme (lit "https") = false))
    ∧ ((g.addAuth net_url url).2 ≠ none →
        g.addAuth net_url url =
          ([], some (url ++
            lit " is not an http or https repository, shouldn't have username or password")))
    ∧ (url = lit "ssh://example.com/repo.git" → u.Scheme = lit "ssh" →
        g.addAuth net_url url =
          ([], some (lit ("ssh://example.com/repo.git is not an http or https repository, " ++
            "shouldn't have username or password")))) := by
  have hc : (g.Username ≠ [] ∨ g.Password ≠ []) = True := eq_true hcred
  by_cases hs : strings.HasSuffix u.Scheme (lit "https") = true ∨
      strings.HasSuffix u.Scheme (lit "http") = true
  · have e : g.addAuth net_url url =
        (net_url.String { u with User := some (UserPassword g.Username g.Password) }, none) := by
      simp only [GitDriver.addAuth, hc, if_true, hparse, hs, not_true_eq_false, if_false]
    refine ⟨?_, ?_, ?_⟩
    · rw [e]
      constructor
      · intro hne; exact absurd rfl hne
      · rintro ⟨h1, h2⟩
        rcases hs with hs | hs
        · rw [h2] at hs; exact absurd hs (by decide)
        · rw [h1] at hs; exact absurd hs (by decide)
    · rw [e]
      intro hne; exact absurd rfl hne
    · intro _ hsch
      rw [hsch] at hs
      exact absurd hs (by decide)
  · have e : g.addAuth net_url url =
        ([], some (url ++
          lit " is not an http or https repository, shouldn't have username or password")) := by
      simp only [GitDriver.addAuth, hc, if_true, hparse, hs, not_false_eq_true]
    refine ⟨?_, fun _ => e, ?_⟩
    · rw [e]
      constructor
      · intro _
        constructor
        · cases h1 : strings.HasSuffix u.Scheme (lit "http")
          · rfl
          · exact absurd (Or.inr h1) hs
        · cases h2 : strings.HasSuffix u.Scheme (lit "https")
          · rfl
          · exact absurd (Or.inl h2) hs
      · intro _; simp
    · intro hurl _
      rw [e, hurl]
      decide

/-- Witness of C4: `ssh://example.com/repo.git` with the credentials `u` and
`p`, parsed by the model of `net/url`. -/
theorem addAuth_unsupported_scheme_witness :
    netURL.Parse (lit "ssh://example.com/repo.git") =
        .ok { url.zeroURL with
              Scheme := lit "ssh", Host := lit "example.com", Path := lit "/repo.git" }
    ∧ (driverWith (lit "u") (lit "p")).addAuth netURL (lit "ssh://example.com/repo.git") =
        ([], some (lit ("ssh://example.com/repo.git is not an http or https repository, " ++
          "shouldn't have username or password"))) :=
  ⟨rfl,
   (addAuth_unsupported_scheme netURL (driverWith (lit "u") (lit "p"))
      (lit "ssh://example.com/repo.git")
      { url.zeroURL with
        Scheme := lit "ssh", Host := lit "example.com", Path := lit "/repo.git" }
      (Or.inl (by decide)) rfl).2.2 rfl rfl⟩

/-- C5: with a credential present and a URL whose parsed scheme ends in
`http` or `https`, `addAuth` succeeds and returns the rendering of the parsed
URL in which the user-info is `Username:Password` and every other component
is the parsed one. -/
theorem addAuth_embeds_credentials (net_url : NetURL) (g : GitDriver) (url : GoString) (u : URL)
    (hcred : g.Username ≠ [] ∨ g.Password ≠ [])
    (hparse : net_url.Parse url = .ok u)
    (hscheme : strings.HasSuffix u.Scheme (lit "http") = true ∨
      strings.HasSuffix u.Scheme (lit "https") = true) :
    g.addAuth net_url url =
      (net_url.String
        { Scheme := u.Scheme, Opaque := u.Opaque,
          User := some { username := g.Username, password := g.Password, passwordSet := true },
          Host := u.Host, Path := u.Path, RawPath := u.RawPath, OmitHost := u.OmitHost,
          ForceQuery := u.ForceQuery, RawQuery := u.RawQuery, Fragment := u.Fragment,
          RawFragment := u.RawFragment }, none) := by
  have hc : (g.Username ≠ [] ∨ g.Password ≠ []) = True := eq_true hcred
  have hs : (strings.HasSuffix u.Scheme (lit "https") = true ∨
      strings.HasSuffix u.Scheme (lit "http") = true) = True := eq_true hscheme.symm
  simp only [GitDriver.addAuth, hc, if_true, hparse, hs, not_true_eq_false, if_false,
    UserPassword]

/-- Witness of C5: the example of the specification, evaluated with the model
of `net/url`: `https://example.com/repo.git` with `u` and `p` gives
`https://u:p@example.com/repo.git`. -/
theorem addAuth_embeds_credentials_witness :
    (driverWith (lit "u") (lit "p")).addAuth netURL (lit "https://example.com/repo.git") =
      (lit "https://u:p@example.com/repo.git", none) :=
  (addAuth_embeds_credentials netURL (driverWith (lit "u") (lit "p"))
    (lit "https://example.com/repo.git")
    { url.zeroURL with
      Scheme := lit "https", Host := lit "example.com", Path := lit "/repo.git" }
    (Or.inl (by decide)) rfl (Or.inr (by decide))).trans (by decide)

/-- C6: `newGit` on an absent configuration, or on bytes that decode, returns
a driver whose `DetectRef`, `Ref`, `Username` and `Password` are the decoded
values (the zero values when the configuration is absent), whose detector is
the head-branch detector and whose `PullDepth` is 1 when the decoded value is
0 and the decoded value otherwise; `PullDepth` is never 0 in a driver it
returns; on bytes that do not decode it returns the error and no driver.
For the configuration of the test, decoded to the user `git_user` and the
password `git_pass`, the driver has these and `PullDepth` 1. -/
theorem newGit_fields (Unmarshal : GoString → Except Error GitConfig) :
    newGit Unmarshal none =
        (some { DetectRef := false, Ref := [], Username := [], Password := [], PullDepth := 1,
                refDetetector := refDetetector.headBranchDetector }, none)
    ∧ (∀ (bs : GoString) (d : GitConfig), Unmarshal bs = .ok d →
        newGit Unmarshal (some bs) =
          (some { DetectRef := d.DetectRef, Ref := d.Ref, Username := d.Username,
                  Password := d.Password,
                  PullDepth := if d.PullDepth = 0 then 1 else d.PullDepth,
                  refDetetector := refDetetector.headBranchDetector }, none))
    ∧ (∀ (b : Option GoString) (g : GitDriver), (newGit Unmarshal b).1 = some g →
        g.PullDepth ≠ 0 ∧ g.refDetetector = refDetetector.headBranchDetector ∧
          (newGit Unmarshal b).2 = none)
    ∧ (∀ (bs : GoString) (err : Error), Unmarshal bs = .error err →
        newGit Unmarshal (some bs) = (none, some err))
    ∧ (Unmarshal (testConfig) =
          .ok { Username := lit "git_user", Password := lit "git_pass" } →
        newGit Unmarshal (some (testConfig)) =
          (some { DetectRef := false, Ref := [], Username := lit "git_user",
                  Password := lit "git_pass", PullDepth := 1,
                  refDetetector := refDetetector.headBranchDetector }, none)) := by
  refine ⟨rfl, ?_, ?_, ?_, ?_⟩
  · intro bs d hd
    simp only [newGit, hd]
  · intro b g hg
    cases b with
    | none =>
      simp only [newGit, Option.some.injEq] at hg
      subst hg
      exact ⟨by decide, rfl, rfl⟩
    | some bs =>
      cases hd : Unmarshal bs with
      | error e => simp [newGit, hd] at hg
      | ok d =>
        simp only [newGit, hd, Option.some.injEq] at hg
        subst hg
        refine ⟨?_, rfl, by simp only [newGit, hd]⟩
        show (if d.PullDepth = 0 then (1 : Int) else d.PullDepth) ≠ 0
        split <;> omega
  · intro bs err hd
    simp only [newGit, hd]
  · intro hd
    simp only [newGit, hd]
    rfl

/-- Witness of C6: the configuration of the test, decoded by the decoder of
this file. -/
theorem newGit_fields_witness :
    json.decodeConfig (testConfig) =
        .ok { Username := lit "git_user", Password := lit "git_pass" }
    ∧ newGit json.decodeConfig
          (some (testConfig)) =
        (some { DetectRef := false, Ref := [], Username := lit "git_user",
                Password := lit "git_pass", PullDepth := 1,
                refDetetector := refDetetector.headBranchDetector }, none)
    ∧ newGit json.decodeConfig (some (lit "\x7b\"pull-depth\": 0\x7d")) =
        (some { DetectRef := false, Ref := [], Username := [], Password := [], PullDepth := 1,
                refDetetector := refDetetector.headBranchDetector }, none)
    ∧ newGit json.decodeConfig (some (lit "\x7b\"username\"")) =
        (none, some (lit "invalid configuration")) :=
  ⟨rfl, (newGit_fields json.decodeConfig).2.2.2.2 rfl,
   (newGit_fields json.decodeConfig).2.1 (lit "\x7b\"pull-depth\": 0\x7d") { PullDepth := 0 } rfl,
   (newGit_fields json.decodeConfig).2.2.2.1 (lit "\x7b\"username\"") (lit "invalid configuration")
     rfl⟩

/-- C7: when `PullDepth = N > 0`, `addDepth` returns the input list followed
by the two tokens `--depth` and the decimal rendering of `N` (digits only, no
leading zero, of value `N`); the first command of `Pull` after the reference
is resolved is `git fetch --prune --no-tags --depth N origin
+<ref>:remotes/origin/<ref>`, and the command of `Clone` is
`git clone --depth N <url> <leaf>` in the parent directory.  When
`PullDepth ≤ 0`, `addDepth` returns the list unchanged.  A driver built by
`newGit` omits the flag exactly when the configured depth is negative. -/
theorem addDepth_depth_flag (g : GitDriver) (N : Nat) (hN : 0 < N)
    (hg : g.PullDepth = (N : Int)) :
    (∀ args : List GoString, g.addDepth args = args ++ [lit "--depth", Sprintf_d N])
    ∧ (Sprintf_d N = formatNat N ∧ decimalValue (formatNat N) = N ∧
        (∀ d ∈ formatNat N, 48 ≤ d ∧ d ≤ 57) ∧ (formatNat N).head? ≠ some 48 ∧
        formatNat N ≠ [])
    ∧ (∀ (env : Env) (dir : GoString) (h : List Call),
        ((g.targetRef env dir h).2 ++
          [Call.CombinedOutput
            { Dir := dir, Path := lit "git",
              Args := [lit "fetch", lit "--prune", lit "--no-tags", lit "--depth", Sprintf_d N,
                lit "origin",
                lit "+" ++ (g.targetRef env dir h).1 ++ lit ":remotes/origin/" ++
                  (g.targetRef env dir h).1] }]) <+: (g.Pull env dir h).2)
    ∧ (∀ (net_url : NetURL) (env : Env) (dir url newUrl : GoString) (h : List Call),
        g.addAuth net_url url = (newUrl, none) →
        (h ++ [Call.CombinedOutput
            { Dir := (filepath.Split dir).1, Path := lit "git",
              Args := [lit "clone", lit "--depth", Sprintf_d N, newUrl,
                (filepath.Split dir).2] }]) <+: (g.Clone net_url env dir url h).2)
    ∧ (∀ (g0 : GitDriver) (args : List GoString), g0.PullDepth ≤ 0 → g0.addDepth args = args)
    ∧ (∀ (Unmarshal : GoString → Except Error GitConfig) (bs : GoString) (d : GitConfig),
        Unmarshal bs = .ok d →
        ∃ g1, newGit Unmarshal (some bs) = (some g1, none) ∧
          ∀ args : List GoString, g1.addDepth args = args ↔ d.PullDepth < 0)
    ∧ (∀ Unmarshal : GoString → Except Error GitConfig,
        ∃ g1, newGit Unmarshal none = (some g1, none) ∧
          ∀ args : List GoString, g1.addDepth args ≠ args) := by
  have hpos : g.PullDepth > 0 := by rw [hg]; exact_mod_cast hN
  have hadd : ∀ args : List GoString,
      g.addDepth args = args ++ [lit "--depth", Sprintf_d N] := by
    intro args
    unfold GitDriver.addDepth
    rw [if_pos hpos, hg]
  refine ⟨hadd, ⟨rfl, ?_, ?_, ?_, ?_⟩, ?_, ?_, ?_, ?_, ?_⟩
  · have := decimalAux_value (N + 1) N [] (by omega)
    simpa [decimalValue, formatNat] using this
  · exact decimalAux_digits (N + 1) N [] (by omega) (by simp)
  · obtain ⟨d, rest, hd, h1, _⟩ := decimalAux_head (N + 1) N [] hN (by omega)
    simp only [formatNat, hd, List.head?_cons, ne_eq, Option.some.injEq]
    intro e
    rw [e] at h1
    exact absurd h1 (by decide)
  · obtain ⟨d, rest, hd, _, _⟩ := decimalAux_head (N + 1) N [] hN (by omega)
    simp [formatNat, hd]
  · intro env dir h
    rw [Pull_eq_HeadRev]
    refine List.IsPrefix.trans ?_ (HeadRev_trace _ _ _ _)
    have hf : fetchCmd g dir (g.targetRef env dir h).1 =
        { Dir := dir, Path := lit "git",
          Args := [lit "fetch", lit "--prune", lit "--no-tags", lit "--depth", Sprintf_d N,
            lit "origin",
            lit "+" ++ (g.targetRef env dir h).1 ++ lit ":remotes/origin/" ++
              (g.targetRef env dir h).1] } := by
      simp only [fetchCmd, hadd]
      rfl
    rw [hf]
    exact List.prefix_append _ _
  · intro net_url env dir url newUrl h hauth
    simp only [GitDriver.Clone, hauth, hadd, exec]
    split
    · exact List.prefix_refl _
    · exact Pull_trace _ _ _ _
  · intro g0 args h0
    have : ¬ g0.PullDepth > 0 := by omega
    simp only [GitDriver.addDepth, this, if_false]
  · intro Unmarshal bs d hd
    refine ⟨{ DetectRef := d.DetectRef, Ref := d.Ref, Username := d.Username,
              Password := d.Password,
              PullDepth := if d.PullDepth = 0 then 1 else d.PullDepth,
              refDetetector := refDetetector.headBranchDetector },
      by simp only [newGit, hd], ?_⟩
    intro args
    simp only [GitDriver.addDepth]
    by_cases h0 : d.PullDepth = 0
    · simp [h0]
    · by_cases h1 : d.PullDepth > 0
      · have : ¬ d.PullDepth < 0 := by omega
        simp [h0, h1, this]
      · have : d.PullDepth < 0 := by omega
        simp [h0, h1, this]
  · intro Unmarshal
    refine ⟨_, rfl, ?_⟩
    intro args
    simp [GitDriver.addDepth]

/-- Witness of C7: a driver with `PullDepth = 1`. -/
theorem addDepth_depth_flag_witness :
    (driverWith [] []).addDepth [lit "clone"] = [lit "clone", lit "--depth", lit "1"]
    ∧ (driverWith [] []).addDepth [lit "fetch", lit "--prune", lit "--no-tags"] =
        [lit "fetch", lit "--prune", lit "--no-tags", lit "--depth", lit "1"] :=
  ⟨((addDepth_depth_flag (driverWith [] []) 1 (by decide) rfl).1 [lit "clone"]).trans
      (by decide),
   ((addDepth_depth_flag (driverWith [] []) 1 (by decide) rfl).1
      [lit "fetch", lit "--prune", lit "--no-tags"]).trans (by decide)⟩

/-- C8, evaluated where it fails: `git remote show origin` fails (its error
is not nil) after printing a line `HEAD branch: main`; `run` drops the
error, so `detectRef` returns `main` instead of the empty string, and
`targetRef` uses it. -/
theorem detectRef_uses_output_of_failed_command :
    (envCombined (lit "* remote origin\n  HEAD branch: main\n") (some (lit "signal: killed")) []
        (Call.CombinedOutput
          { Dir := lit "/repo", Path := lit "git",
            Args := [lit "remote", lit "show", lit "origin"] })).err =
      some (lit "signal: killed")
    ∧ (headBranchDetector.detectRef
        (envCombined (lit "* remote origin\n  HEAD branch: main\n") (some (lit "signal: killed")))
        (lit "/repo") []).1 = lit "main"
    ∧ (GitDriver.targetRef
        (envCombined (lit "* remote origin\n  HEAD branch: main\n") (some (lit "signal: killed")))
        { driverWith [] [] with DetectRef := true } (lit "/repo") []).1 = lit "main" := by
  refine ⟨rfl, ?_, ?_⟩ <;> decide

/-- C9, counterexample: `ls-files` exits uncleanly (its `Wait` fails) after
the output of `check-attr` was parsed, and `AutoGeneratedFiles` returns the
file found in that output, not the empty sequence. -/
theorem autoGeneratedFiles_wait_failure_keeps_files :
    (waitOutcome (envCheckAttr (lit "gen.go\x00linguist-generated\x00true\x00")
        (some (lit "exit status 128"))) (lit "/repo") []).err = some (lit "exit status 128")
    ∧ (GitDriver.AutoGeneratedFiles
        (envCheckAttr (lit "gen.go\x00linguist-generated\x00true\x00")
          (some (lit "exit status 128")))
        (driverWith [] []) (lit "/repo") []).1 = [lit "gen.go"]
    ∧ (GitDriver.AutoGeneratedFiles
        (envCheckAttr (lit "gen.go\x00linguist-generated\x00true\x00")
          (some (lit "exit status 128")))
        (driverWith [] []) (lit "/repo") []).1 ≠ [] := by
  refine ⟨rfl, ?_, ?_⟩ <;> decide

/-- C9, amended: `AutoGeneratedFiles` always returns a sequence (its result
carries no error); the sequence is empty when the pipe of `ls-files` cannot
be created, when `ls-files` fails to start and when `check-attr` fails;
otherwise it is the result of the scan of the output of `check-attr`,
whether waiting for `ls-files` then fails or not. -/
theorem autoGeneratedFiles_best_effort (env : Env) (g : GitDriver) (dir : GoString)
    (h : List Call) :
    (g.AutoGeneratedFiles env dir h).1 =
      (if (pipeOutcome env dir h).err ≠ none then []
       else if (startOutcome env dir h).err ≠ none then []
       else if (attrOutcome env dir h).err ≠ none then []
       else parseCheckAttr (attrOutcome env dir h).out []) := by
  simp only [GitDriver.AutoGeneratedFiles, exec, pipeOutcome, startOutcome, attrOutcome]
  split
  · rename_i e he
    rw [if_pos (by rw [he]; exact Option.some_ne_none _)]
  · rename_i he
    simp only [he, ne_eq, not_true_eq_false, if_false]
    split
    · rename_i e hs
      rw [if_pos (by rw [hs]; exact Option.some_ne_none _)]
    · rename_i hs
      simp only [hs, ne_eq, not_true_eq_false, if_false]
      split
      · rename_i e ha
        rw [if_pos (by rw [ha]; exact Option.some_ne_none _)]
      · rename_i ha
        simp only [ha, ne_eq, not_true_eq_false, if_false]
        split <;> rfl

/-- C10: `run` returns the combined output of the command with a nil error,
whatever the command did; hence `Pull` runs the fetch, then the reset, then
`HeadRev`, and returns exactly what `HeadRev` returns after these two
commands: `Pull` returns an error if and only if that `HeadRev` does. -/
theorem Pull_result_is_HeadRev (env : Env) (g : GitDriver) (dir : GoString) (h : List Call) :
    (∀ (desc d cmd : GoString) (args : List GoString) (h0 : List Call),
        run env desc d cmd args h0 =
          (((env h0 (Call.CombinedOutput { Dir := d, Path := cmd, Args := args })).out, none),
            h0 ++ [Call.CombinedOutput { Dir := d, Path := cmd, Args := args }]))
    ∧ g.Pull env dir h =
        g.HeadRev env dir
          ((g.targetRef env dir h).2 ++
            [Call.CombinedOutput
              { Dir := dir, Path := lit "git",
                Args := g.addDepth [lit "fetch", lit "--prune", lit "--no-tags"] ++
                  [lit "origin",
                   lit "+" ++ (g.targetRef env dir h).1 ++ lit ":remotes/origin/" ++
                     (g.targetRef env dir h).1] }] ++
            [Call.CombinedOutput
              { Dir := dir, Path := lit "git",
                Args := [lit "reset", lit "--hard",
                  lit "origin/" ++ (g.targetRef env dir h).1] }])
    ∧ ((g.Pull env dir h).1.2 ≠ none ↔
        (g.HeadRev env dir
          ((g.targetRef env dir h).2 ++
            [Call.CombinedOutput (fetchCmd g dir (g.targetRef env dir h).1)] ++
            [Call.CombinedOutput (resetCmd dir (g.targetRef env dir h).1)])).1.2 ≠ none) := by
  refine ⟨fun _ _ _ _ _ => rfl, rfl, ?_⟩
  rw [Pull_eq_HeadRev]

end Vcs
